import Mathlib

/-!
Verification of the 3D scene editor core of this repository
(`src/components/ThreeDEditor.tsx`): the scene store, the snapshot-based
undo/redo history engine, the keyboard shortcut handler and the
save/load persistence adapter.

The TypeScript component state is embedded as an explicit `EditorState`
record; each `useCallback` handler of the source becomes a pure state
transformation.  The React state setters that a handler issues are read
sequentially (each setter's effect is visible to the following lines of
the same handler).  JavaScript numbers are modelled as rationals (the
properties at stake are order-theoretic and exact), `Date.now()`
timestamps and the nondeterministically generated fresh object ids are
passed in as explicit parameters.
-/

namespace ThreeDEditor

/-- A 3-component vector (`[number, number, number]` in the source). -/
structure Vec3 where
  x : ℚ
  y : ℚ
  z : ℚ
deriving DecidableEq, Repr

/-- Component read, mirroring `v[index]` for `index` in `0..2`. -/
def Vec3.getComp (v : Vec3) : Fin 3 → ℚ
  | 0 => v.x
  | 1 => v.y
  | 2 => v.z

/-- Component write, mirroring `newV[index] = a` for `index` in `0..2`. -/
def Vec3.setComp (v : Vec3) (i : Fin 3) (a : ℚ) : Vec3 :=
  match i with
  | 0 => { v with x := a }
  | 1 => { v with y := a }
  | 2 => { v with z := a }

/-- The closed enumeration `'box' | 'sphere' | 'cylinder' | 'cone'`. -/
inductive ObjectType where
  | box
  | sphere
  | cylinder
  | cone
deriving DecidableEq, Repr

/-- `type.charAt(0).toUpperCase() + type.slice(1)` applied to the four
enumeration literals (the display-name stem used by `addObject`). -/
def ObjectType.capitalized : ObjectType → String
  | .box => "Box"
  | .sphere => "Sphere"
  | .cylinder => "Cylinder"
  | .cone => "Cone"

/-- The `SceneObject` interface of the source, field for field. -/
structure SceneObject where
  id : String
  type : ObjectType
  position : Vec3
  rotation : Vec3
  scale : Vec3
  color : String
  visible : Bool
  name : String
  wireframe : Bool
  opacity : ℚ
  metalness : ℚ
  roughness : ℚ
  emissive : String
  emissiveIntensity : ℚ
deriving DecidableEq, Repr

/-- The `HistoryState` interface of the source: one undo/redo snapshot. -/
structure HistoryState where
  objects : List SceneObject
  selectedObjectId : Option String
  timestamp : Nat
deriving DecidableEq, Repr

/-- `type TransformMode = 'translate' | 'rotate' | 'scale'`. -/
inductive TransformMode where
  | translate
  | rotate
  | scale
deriving DecidableEq, Repr

/-- The editor component state relevant to the scene/history core:
`objects`, `selectedObjectId`, `transformMode`, `history` and
`historyIndex` (a JavaScript number initialised to `-1`, hence `Int`). -/
structure EditorState where
  objects : List SceneObject
  selectedObjectId : Option String
  transformMode : TransformMode
  history : List HistoryState
  historyIndex : Int
deriving DecidableEq, Repr

/-- The component's initial state: empty scene, no selection, translate
mode, empty history, `historyIndex = -1`.  The live scene and selection
are parameters so that history-engine facts hold for any live state. -/
def initialEditorState (objs : List SceneObject) (sel : Option String) : EditorState :=
  { objects := objs
    selectedObjectId := sel
    transformMode := .translate
    history := []
    historyIndex := -1 }

/-- The snapshot built at the top of `saveToHistory`:
`{ objects: JSON.parse(JSON.stringify(objects)), selectedObjectId, timestamp: Date.now() }`.
The deep copy is the identity on immutable values. -/
def mkSnapshot (s : EditorState) (now : Nat) : HistoryState :=
  { objects := s.objects
    selectedObjectId := s.selectedObjectId
    timestamp := now }

/-- `saveToHistory` of the source: truncate the log after the cursor
(`history.slice(0, historyIndex + 1)`), push the fresh snapshot, and if
the log now exceeds 50 entries drop the oldest (`shift()`) without
advancing the cursor, otherwise advance the cursor. -/
def saveToHistory (s : EditorState) (now : Nat) : EditorState :=
  let newHistory := s.history.take (s.historyIndex + 1).toNat ++ [mkSnapshot s now]
  if 50 < newHistory.length then
    { s with history := newHistory.tail }
  else
    { s with history := newHistory, historyIndex := s.historyIndex + 1 }

/-- `undo` of the source: when `historyIndex > 0`, install
`history[historyIndex - 1]` as the live objects and selection and
decrement the cursor.  The `none` branch stands for the out-of-bounds
array read `history[historyIndex - 1]` being `undefined`; it is
unreachable while the cursor is a valid index of a nonempty log. -/
def undo (s : EditorState) : EditorState :=
  if 0 < s.historyIndex then
    match s.history.get? (s.historyIndex - 1).toNat with
    | some prevState =>
        { s with objects := prevState.objects
                 selectedObjectId := prevState.selectedObjectId
                 historyIndex := s.historyIndex - 1 }
    | none => s
  else s

/-- `redo` of the source: when `historyIndex < history.length - 1`,
install `history[historyIndex + 1]` and increment the cursor.  The
`none` branch is unreachable exactly as in `undo`. -/
def redo (s : EditorState) : EditorState :=
  if s.historyIndex < (s.history.length : Int) - 1 then
    match s.history.get? (s.historyIndex + 1).toNat with
    | some nextState =>
        { s with objects := nextState.objects
                 selectedObjectId := nextState.selectedObjectId
                 historyIndex := s.historyIndex + 1 }
    | none => s
  else s

/-- A `Partial<SceneObject>` value as passed to `updateObject`: each
field optionally present.  A present field overwrites the stored one
(object spread `{ ...obj, ...updates }`). -/
structure SceneObjectUpdate where
  id : Option String := none
  type : Option ObjectType := none
  position : Option Vec3 := none
  rotation : Option Vec3 := none
  scale : Option Vec3 := none
  color : Option String := none
  visible : Option Bool := none
  name : Option String := none
  wireframe : Option Bool := none
  opacity : Option ℚ := none
  metalness : Option ℚ := none
  roughness : Option ℚ := none
  emissive : Option String := none
  emissiveIntensity : Option ℚ := none
deriving DecidableEq, Repr

/-- The object spread `{ ...obj, ...updates }`. -/
def applyUpdate (o : SceneObject) (u : SceneObjectUpdate) : SceneObject :=
  { id := u.id.getD o.id
    type := u.type.getD o.type
    position := u.position.getD o.position
    rotation := u.rotation.getD o.rotation
    scale := u.scale.getD o.scale
    color := u.color.getD o.color
    visible := u.visible.getD o.visible
    name := u.name.getD o.name
    wireframe := u.wireframe.getD o.wireframe
    opacity := u.opacity.getD o.opacity
    metalness := u.metalness.getD o.metalness
    roughness := u.roughness.getD o.roughness
    emissive := u.emissive.getD o.emissive
    emissiveIntensity := u.emissiveIntensity.getD o.emissiveIntensity }

/-- `updateObject` of the source: merge the given fields into the object
with the matching id, leave every other object untouched, and do not
touch the history (the source comment: no history entry per property
change). -/
def updateObject (s : EditorState) (id : String) (u : SceneObjectUpdate) : EditorState :=
  { s with objects := s.objects.map fun o => if o.id = id then applyUpdate o u else o }

/-- `addObject` of the source.  `newId` stands for the `generateId()`
result and `now` for `Date.now()` in the trailing `saveToHistory` call. -/
def addObject (s : EditorState) (type : ObjectType) (newId : String) (now : Nat) :
    EditorState :=
  let newObject : SceneObject :=
    { id := newId
      type := type
      position := ⟨0, 0, 0⟩
      rotation := ⟨0, 0, 0⟩
      scale := ⟨1, 1, 1⟩
      color := "#7855ff"
      visible := true
      name := type.capitalized ++ " " ++ toString (s.objects.length + 1)
      wireframe := false
      opacity := 1
      metalness := 0
      roughness := 1/2
      emissive := "#000000"
      emissiveIntensity := 0 }
  saveToHistory
    { s with objects := s.objects ++ [newObject], selectedObjectId := some newId } now

/-- `deleteSelectedObject` of the source: filter the selected object out,
clear the selection, commit. -/
def deleteSelectedObject (s : EditorState) (now : Nat) : EditorState :=
  match s.selectedObjectId with
  | some selId =>
      saveToHistory
        { s with objects := s.objects.filter fun o => o.id != selId
                 selectedObjectId := none } now
  | none => s

/-- `duplicateSelectedObject` of the source: clone the selected object
under a fresh id, shift its x position by one, suffix its name with
" Copy", append, select the clone, commit; no-op when nothing is
selected or the selected id is not found. -/
def duplicateSelectedObject (s : EditorState) (newId : String) (now : Nat) : EditorState :=
  match s.selectedObjectId with
  | some selId =>
      match s.objects.find? (fun o => o.id == selId) with
      | some objectToDuplicate =>
          let duplicatedObject : SceneObject :=
            { objectToDuplicate with
                id := newId
                position := { objectToDuplicate.position with
                                x := objectToDuplicate.position.x + 1 }
                name := objectToDuplicate.name ++ " Copy" }
          saveToHistory
            { s with objects := s.objects ++ [duplicatedObject]
                     selectedObjectId := some newId } now
      | none => s
  | none => s

/-- `parseFloat(e.target.value) || 0.1` in the Properties panel's scale
input handler: `none` models a `NaN` parse, and a parsed `0` is falsy,
so both fall back to `0.1`. -/
def parsedScaleInput (raw : Option ℚ) : ℚ :=
  match raw with
  | some v => if v = 0 then 1/10 else v
  | none => 1/10

/-- The Properties panel's scale input `onChange` handler
(`PropertiesPanel.tsx` lines 101-120): copy the selected object's scale,
overwrite one component with `Math.max(0.1, parseFloat(value) || 0.1)`,
and forward to `updateObject`. -/
def scaleInputChange (s : EditorState) (selectedObject : SceneObject) (index : Fin 3)
    (raw : Option ℚ) : EditorState :=
  let newScale := selectedObject.scale.setComp index (max (1/10) (parsedScaleInput raw))
  updateObject s selectedObject.id { scale := some newScale }

/-- The value found at the `objects` key of a parsed scene document:
either a JSON array (which `loadScene` installs verbatim as the object
list), a string, or null/absent.  Only the array case passes the
`sceneData.objects && Array.isArray(sceneData.objects)` test. -/
inductive JsonObjectsField where
  | jarr (objs : List SceneObject)
  | jstr (v : String)
  | jnull
deriving DecidableEq, Repr

/-- The persisted scene document shape produced by `saveScene`:
the object collection plus `metadata: { version, created, objectCount }`. -/
structure SceneDocument where
  objects : JsonObjectsField
  version : String
  created : Nat
  objectCount : Nat
deriving DecidableEq, Repr

/-- `saveScene` of the source, restricted to the document it builds (the
triggered file download carries no editor state). `created` is the
`new Date().toISOString()` timestamp, modelled as the clock value. -/
def saveScene (s : EditorState) (now : Nat) : SceneDocument :=
  { objects := .jarr s.objects
    version := "1.0"
    created := now
    objectCount := s.objects.length }

/-- `loadScene`'s `reader.onload` callback.  `parsed = none` models
`JSON.parse` throwing: the catch block logs `console.error` and leaves
the state alone.  A parsed document whose `objects` field is an array is
installed with the selection cleared and a history commit; any other
`objects` field falls through the `if` with no state change and no log.
The returned `Bool` records whether `console.error` ran. -/
def loadScene (s : EditorState) (parsed : Option SceneDocument) (now : Nat) :
    EditorState × Bool :=
  match parsed with
  | none => (s, true)
  | some sceneData =>
      match sceneData.objects with
      | .jarr objs =>
          (saveToHistory { s with objects := objs, selectedObjectId := none } now, false)
      | _ => (s, false)

/-- A `keydown` event as seen by `handleKeyDown`: the key, the modifier
flags, and whether the event target is a text input element.  The last
field records a fact about the DOM event that the handler could consult
but never reads. -/
structure KeyEvent where
  key : String
  ctrlKey : Bool
  metaKey : Bool
  shiftKey : Bool
  targetIsTextInput : Bool
deriving DecidableEq, Repr

/-- `handleKeyDown` of the source, line for line.  `saveScene` only
triggers a download, so the `modifier+s` branch leaves the editor state
unchanged; `newId`/`now` feed the duplicate and delete branches. -/
def handleKeyDown (s : EditorState) (e : KeyEvent) (newId : String) (now : Nat) :
    EditorState :=
  if e.ctrlKey || e.metaKey then
    if e.key = "z" then
      if e.shiftKey then redo s else undo s
    else if e.key = "y" then redo s
    else if e.key = "s" then s
    else if e.key = "d" then
      if s.selectedObjectId.isSome then duplicateSelectedObject s newId now else s
    else s
  else
    if e.key = "Delete" ∨ e.key = "Backspace" then
      if s.selectedObjectId.isSome then deleteSelectedObject s now else s
    else if e.key = "g" then { s with transformMode := .translate }
    else if e.key = "r" then { s with transformMode := .rotate }
    else if e.key = "s" then { s with transformMode := .scale }
    else if e.key = "Escape" then { s with selectedObjectId := none }
    else s

/-- One user-driven history operation: an explicit commit
(`saveToHistory`, with its `Date.now()` value), an undo, or a redo. -/
inductive EditorOp where
  | commit (now : Nat)
  | undo
  | redo
deriving DecidableEq, Repr

/-- Dispatch one operation to the corresponding source handler. -/
def applyOp (s : EditorState) : EditorOp → EditorState
  | .commit now => saveToHistory s now
  | .undo => undo s
  | .redo => redo s

/-- Run a sequence of history operations from a starting state. -/
def runOps (s : EditorState) (ops : List EditorOp) : EditorState :=
  ops.foldl applyOp s

/-- The cursor invariant of the spec: `historyIndex` is `-1` exactly
while the log is empty, and a valid index into the log otherwise. -/
def HistoryInv (s : EditorState) : Prop :=
  (s.history = [] → s.historyIndex = -1) ∧
  (s.history ≠ [] → 0 ≤ s.historyIndex ∧ s.historyIndex < s.history.length)

/-- `n` successive `saveToHistory` commits; the `k`-th commit runs at
`Date.now() = k`, so the snapshots are distinguishable by timestamp. -/
def commitSeq (s : EditorState) : Nat → EditorState
  | 0 => s
  | n + 1 => saveToHistory (commitSeq s n) n

/-- The snapshot committed by the `t`-th step of `commitSeq` from an
initial state with live objects `objs` and selection `sel`. -/
def commitSnap (objs : List SceneObject) (sel : Option String) (t : Nat) : HistoryState :=
  { objects := objs, selectedObjectId := sel, timestamp := t }

/-- A sample scene object (the defaults of `addObject` for a box). -/
def sampleObject (id : String) : SceneObject :=
  { id := id
    type := .box
    position := ⟨0, 0, 0⟩
    rotation := ⟨0, 0, 0⟩
    scale := ⟨1, 1, 1⟩
    color := "#7855ff"
    visible := true
    name := "Box 1"
    wireframe := false
    opacity := 1
    metalness := 0
    roughness := 1/2
    emissive := "#000000"
    emissiveIntensity := 0 }

/-- A state holding exactly one object, with it selected and history
still empty (used to evaluate handlers at concrete inputs). -/
def oneBoxState : EditorState :=
  { objects := [sampleObject "a"]
    selectedObjectId := some "a"
    transformMode := .translate
    history := []
    historyIndex := -1 }

/-- The snapshot committed while the scene held the single object
`sampleObject "a"`: the state `A` of the undo example. -/
def snapshotA : HistoryState :=
  { objects := [sampleObject "a"], selectedObjectId := some "a", timestamp := 1 }

/-- The baseline snapshot committed while the scene was empty. -/
def snapshotEmpty : HistoryState :=
  { objects := [], selectedObjectId := none, timestamp := 0 }

/-- A state whose history is `[snapshotEmpty, snapshotA]` with the
cursor on `snapshotA` (= state `A`), and whose live scene has been
mutated to a different object list `B` without committing. -/
def mutatedAfterCommitState : EditorState :=
  { objects := [sampleObject "b"]
    selectedObjectId := some "b"
    transformMode := .translate
    history := [snapshotEmpty, snapshotA]
    historyIndex := 1 }

/-- A scene document whose `objects` field is a string, not an array. -/
def malformedDoc : SceneDocument :=
  { objects := .jstr "not an array"
    version := "1.0"
    created := 0
    objectCount := 0 }

/-- The object stored after a Properties-panel scale edit of `-1` on
component 0 of `sampleObject "a"`. -/
def clampedObject : SceneObject :=
  { sampleObject "a" with
      scale := (sampleObject "a").scale.setComp 0 (max (1/10) (parsedScaleInput (some (-1)))) }

/-- `Array.isArray` applied to the value at the `objects` key. -/
def JsonObjectsField.isArr : JsonObjectsField → Bool
  | .jarr _ => true
  | _ => false

theorem saveToHistory_objects (s : EditorState) (now : Nat) :
    (saveToHistory s now).objects = s.objects := by
  simp only [saveToHistory]
  split <;> rfl

theorem saveToHistory_selected (s : EditorState) (now : Nat) :
    (saveToHistory s now).selectedObjectId = s.selectedObjectId := by
  simp only [saveToHistory]
  split <;> rfl

theorem saveToHistory_mode (s : EditorState) (now : Nat) :
    (saveToHistory s now).transformMode = s.transformMode := by
  simp only [saveToHistory]
  split <;> rfl

theorem undo_eq_of_get? (s : EditorState) (prevState : HistoryState)
    (h1 : 0 < s.historyIndex)
    (h2 : s.history.get? (s.historyIndex - 1).toNat = some prevState) :
    undo s = { s with objects := prevState.objects
                      selectedObjectId := prevState.selectedObjectId
                      historyIndex := s.historyIndex - 1 } := by
  simp only [undo, if_pos h1, h2]

theorem redo_eq_of_get? (s : EditorState) (nextState : HistoryState)
    (h1 : s.historyIndex < (s.history.length : Int) - 1)
    (h2 : s.history.get? (s.historyIndex + 1).toNat = some nextState) :
    redo s = { s with objects := nextState.objects
                      selectedObjectId := nextState.selectedObjectId
                      historyIndex := s.historyIndex + 1 } := by
  simp only [redo, if_pos h1, h2]

/-- C10: undo and redo never change the history log itself — its length
and every stored snapshot are identical before and after either call;
only the cursor and the live objects/selection move. -/
theorem undo_redo_preserve_history (s : EditorState) :
    (undo s).history = s.history ∧ (redo s).history = s.history := by
  constructor
  · simp only [undo]
    split
    · split <;> rfl
    · rfl
  · simp only [redo]
    split
    · split <;> rfl
    · rfl

/-- C7: for every store state and every kind, `addObject` appends one
new object with position at the origin, zero rotation, unit scale, the
default material, and display name `"<Kind> <N>"` with `N` the pre-add
object count plus one, and the new object's id becomes the selection. -/
theorem addObject_spec (s : EditorState) (type : ObjectType) (newId : String) (now : Nat) :
    ∃ o : SceneObject,
      (addObject s type newId now).objects = s.objects ++ [o] ∧
      o.id = newId ∧
      o.type = type ∧
      o.position = ⟨0, 0, 0⟩ ∧
      o.rotation = ⟨0, 0, 0⟩ ∧
      o.scale = ⟨1, 1, 1⟩ ∧
      o.color = "#7855ff" ∧
      o.visible = true ∧
      o.name = type.capitalized ++ " " ++ toString (s.objects.length + 1) ∧
      o.wireframe = false ∧
      o.opacity = 1 ∧
      o.metalness = 0 ∧
      o.roughness = 1/2 ∧
      o.emissive = "#000000" ∧
      o.emissiveIntensity = 0 ∧
      (addObject s type newId now).selectedObjectId = some newId := by
  refine ⟨{ id := newId
            type := type
            position := ⟨0, 0, 0⟩
            rotation := ⟨0, 0, 0⟩
            scale := ⟨1, 1, 1⟩
            color := "#7855ff"
            visible := true
            name := type.capitalized ++ " " ++ toString (s.objects.length + 1)
            wireframe := false
            opacity := 1
            metalness := 0
            roughness := 1/2
            emissive := "#000000"
            emissiveIntensity := 0 },
         ?_, rfl, rfl, rfl, rfl, rfl, rfl, rfl, rfl, rfl, rfl, rfl, rfl, rfl, rfl, ?_⟩
  · simp only [addObject, saveToHistory_objects]
  · simp only [addObject, saveToHistory_selected]

/-- C9: serialising the store to a document and deserialising that
document back (into any intermediate state) reproduces the object
collection exactly — same ids, fields and order — with the selection
cleared; only the timestamp metadata is dropped. -/
theorem save_load_roundtrip (s s' : EditorState) (now later : Nat) :
    ((loadScene s' (some (saveScene s now)) later).1).objects = s.objects ∧
    ((loadScene s' (some (saveScene s now)) later).1).selectedObjectId = none := by
  constructor
  · simp only [loadScene, saveScene, saveToHistory_objects]
  · simp only [loadScene, saveScene, saveToHistory_selected]

/-- C1 counterexample: with history `[snapshotEmpty, snapshotA]`, cursor
on `snapshotA` (state `A`) and the live scene mutated to `B` without
committing, `undo` does not restore `A`: it installs `snapshotEmpty`,
the snapshot before the cursor. -/
theorem undo_cursor_snapshot_counterexample :
    mutatedAfterCommitState.history.get? mutatedAfterCommitState.historyIndex.toNat
      = some snapshotA ∧
    (undo mutatedAfterCommitState).objects ≠ snapshotA.objects ∧
    (undo mutatedAfterCommitState).objects = snapshotEmpty.objects := by
  refine ⟨rfl, ?_, rfl⟩
  intro h
  exact List.noConfusion h

/-- C1 amended: if the history's entry at the cursor is `A` and the live
scene was mutated to `B` without committing, `undo` (enabled when the
cursor is positive) discards the uncommitted `B` and installs the
snapshot at cursor minus one — the state committed before `A`, not `A`
itself — decrementing the cursor. -/
theorem undo_restores_predecessor_snapshot (s : EditorState) (prevState : HistoryState)
    (h1 : 0 < s.historyIndex)
    (h2 : s.history.get? (s.historyIndex - 1).toNat = some prevState) :
    undo s = { s with objects := prevState.objects
                      selectedObjectId := prevState.selectedObjectId
                      historyIndex := s.historyIndex - 1 } :=
  undo_eq_of_get? s prevState h1 h2

theorem undo_restores_predecessor_snapshot_witness :
    (0 < mutatedAfterCommitState.historyIndex ∧
     mutatedAfterCommitState.history.get? (mutatedAfterCommitState.historyIndex - 1).toNat
       = some snapshotEmpty) ∧
    undo mutatedAfterCommitState =
      { mutatedAfterCommitState with
          objects := snapshotEmpty.objects
          selectedObjectId := snapshotEmpty.selectedObjectId
          historyIndex := mutatedAfterCommitState.historyIndex - 1 } :=
  ⟨⟨by decide, rfl⟩,
   undo_restores_predecessor_snapshot mutatedAfterCommitState snapshotEmpty
     (by decide) rfl⟩

/-- C2: from any state where undo is enabled (cursor positive) and the
cursor points at a committed snapshot, `undo` followed immediately by
`redo` restores exactly the objects and selected id committed at the
cursor before the undo, and the cursor returns to its old position. -/
theorem undo_redo_roundtrip (s : EditorState) (cur : HistoryState)
    (h1 : 0 < s.historyIndex)
    (h2 : s.history.get? s.historyIndex.toNat = some cur) :
    (redo (undo s)).objects = cur.objects ∧
    (redo (undo s)).selectedObjectId = cur.selectedObjectId ∧
    (redo (undo s)).historyIndex = s.historyIndex := by
  have hlen : s.historyIndex.toNat < s.history.length := by
    by_contra hge
    rw [List.get?_eq_none.mpr (Nat.le_of_not_lt hge)] at h2
    exact Option.noConfusion h2
  have hprevlt : (s.historyIndex - 1).toNat < s.history.length := by omega
  obtain ⟨prevState, hprev⟩ : ∃ p, s.history.get? (s.historyIndex - 1).toNat = some p :=
    ⟨_, List.get?_eq_get hprevlt⟩
  rw [undo_eq_of_get? s prevState h1 hprev]
  have h1r : s.historyIndex - 1 < (s.history.length : Int) - 1 := by omega
  have h2r : s.history.get? (s.historyIndex - 1 + 1).toNat = some cur := by
    rw [sub_add_cancel]
    exact h2
  rw [redo_eq_of_get? _ cur h1r h2r]
  refine ⟨rfl, rfl, ?_⟩
  show s.historyIndex - 1 + 1 = s.historyIndex
  omega

theorem undo_redo_roundtrip_witness :
    (0 < mutatedAfterCommitState.historyIndex ∧
     mutatedAfterCommitState.history.get? mutatedAfterCommitState.historyIndex.toNat
       = some snapshotA) ∧
    ((redo (undo mutatedAfterCommitState)).objects = snapshotA.objects ∧
     (redo (undo mutatedAfterCommitState)).selectedObjectId = snapshotA.selectedObjectId ∧
     (redo (undo mutatedAfterCommitState)).historyIndex
       = mutatedAfterCommitState.historyIndex) :=
  ⟨⟨by decide, rfl⟩,
   undo_redo_roundtrip mutatedAfterCommitState snapshotA (by decide) rfl⟩

theorem saveToHistory_cases (s : EditorState) (now : Nat) :
    (50 < min (s.historyIndex + 1).toNat s.history.length + 1 ∧
      (saveToHistory s now).history
        = (s.history.take (s.historyIndex + 1).toNat ++ [mkSnapshot s now]).tail ∧
      (saveToHistory s now).historyIndex = s.historyIndex) ∨
    (min (s.historyIndex + 1).toNat s.history.length + 1 ≤ 50 ∧
      (saveToHistory s now).history
        = s.history.take (s.historyIndex + 1).toNat ++ [mkSnapshot s now] ∧
      (saveToHistory s now).historyIndex = s.historyIndex + 1) := by
  simp only [saveToHistory]
  split
  next hgt =>
    left
    refine ⟨?_, rfl, rfl⟩
    simpa [List.length_take] using hgt
  next hle =>
    right
    refine ⟨?_, rfl, rfl⟩
    have := Nat.le_of_not_lt hle
    simpa [List.length_take] using this

theorem historyInv_saveToHistory (s : EditorState) (now : Nat) (h : HistoryInv s) :
    HistoryInv (saveToHistory s now) := by
  obtain ⟨h1, h2⟩ := h
  rcases saveToHistory_cases s now with ⟨hgt, hh, hi⟩ | ⟨hle, hh, hi⟩
  · have hlen : (saveToHistory s now).history.length
        = min (s.historyIndex + 1).toNat s.history.length := by
      rw [hh]
      simp [List.length_tail, List.length_take]
    have hsne : s.history ≠ [] := by
      intro hnil
      rw [hnil] at hgt
      simp at hgt
    obtain ⟨ha, hb⟩ := h2 hsne
    constructor
    · intro hnil
      rw [hnil] at hlen
      simp at hlen
      omega
    · intro _
      rw [hi]
      constructor
      · omega
      · rw [hlen]
        omega
  · have hlen : (saveToHistory s now).history.length
        = min (s.historyIndex + 1).toNat s.history.length + 1 := by
      rw [hh]
      simp [List.length_take]
    constructor
    · intro hnil
      rw [hnil] at hlen
      simp at hlen
    · intro _
      rw [hi, hlen]
      by_cases hsne : s.history = []
      · have hidx := h1 hsne
        rw [hsne]
        simp only [List.length_nil]
        constructor <;> omega
      · obtain ⟨ha, hb⟩ := h2 hsne
        constructor <;> omega

theorem historyInv_undo (s : EditorState) (h : HistoryInv s) : HistoryInv (undo s) := by
  obtain ⟨h1, h2⟩ := h
  simp only [undo]
  split
  next hpos =>
    have hne : s.history ≠ [] := by
      intro hnil
      have := h1 hnil
      omega
    obtain ⟨ha, hb⟩ := h2 hne
    have hlt : (s.historyIndex - 1).toNat < s.history.length := by omega
    rw [List.get?_eq_get hlt]
    refine ⟨fun hh => absurd hh hne, fun _ => ⟨?_, ?_⟩⟩
    · show (0 : Int) ≤ s.historyIndex - 1
      omega
    · show s.historyIndex - 1 < (s.history.length : Int)
      omega
  next => exact ⟨h1, h2⟩

theorem historyInv_redo (s : EditorState) (h : HistoryInv s) : HistoryInv (redo s) := by
  obtain ⟨h1, h2⟩ := h
  simp only [redo]
  split
  next hlt =>
    have hne : s.history ≠ [] := by
      intro hnil
      have := h1 hnil
      rw [hnil] at hlt
      simp at hlt
      omega
    obtain ⟨ha, hb⟩ := h2 hne
    have hlt2 : (s.historyIndex + 1).toNat < s.history.length := by omega
    rw [List.get?_eq_get hlt2]
    refine ⟨fun hh => absurd hh hne, fun _ => ⟨?_, ?_⟩⟩
    · show (0 : Int) ≤ s.historyIndex + 1
      omega
    · show s.historyIndex + 1 < (s.history.length : Int)
      omega
  next => exact ⟨h1, h2⟩

theorem historyInv_runOps (s : EditorState) (ops : List EditorOp) (h : HistoryInv s) :
    HistoryInv (runOps s ops) := by
  induction ops generalizing s with
  | nil => exact h
  | cons op rest ih =>
      have hstep : HistoryInv (applyOp s op) := by
        cases op with
        | commit now => exact historyInv_saveToHistory s now h
        | undo => exact historyInv_undo s h
        | redo => exact historyInv_redo s h
      simpa only [runOps, List.foldl_cons] using ih (applyOp s op) hstep

/-- C4: starting from an empty history, after any sequence of commit,
undo and redo operations the cursor is a valid index into the log when
the log is nonempty and `-1` when it is empty; and every commit
truncates the entries beyond the cursor before appending its snapshot
(the resulting log is a suffix of the first `cursor + 1` old entries —
the whole prefix, or that prefix less its oldest entry when the cap
evicts — followed by the fresh snapshot). -/
theorem history_cursor_invariant_and_truncation :
    (∀ (objs : List SceneObject) (sel : Option String) (ops : List EditorOp),
        HistoryInv (runOps (initialEditorState objs sel) ops)) ∧
    (∀ (s : EditorState) (now : Nat), ∃ dropped : Nat,
        (saveToHistory s now).history =
          ((s.history.take (s.historyIndex + 1).toNat).drop dropped)
            ++ [mkSnapshot s now]) := by
  constructor
  · intro objs sel ops
    exact historyInv_runOps _ ops ⟨fun _ => rfl, fun hne => absurd rfl hne⟩
  · intro s now
    simp only [saveToHistory]
    split
    next hgt =>
      refine ⟨1, ?_⟩
      cases hx : s.history.take (s.historyIndex + 1).toNat with
      | nil =>
          rw [hx] at hgt
          simp at hgt
      | cons y ys =>
          simp
    next =>
      exact ⟨0, by simp⟩

theorem commitSeq_spec (objs : List SceneObject) (sel : Option String) (n : Nat) :
    (commitSeq (initialEditorState objs sel) n).objects = objs ∧
    (commitSeq (initialEditorState objs sel) n).selectedObjectId = sel ∧
    (commitSeq (initialEditorState objs sel) n).history
      = ((List.range n).drop (n - 50)).map (commitSnap objs sel) ∧
    (commitSeq (initialEditorState objs sel) n).historyIndex
      = ((min n 50 : Nat) : Int) - 1 := by
  induction n with
  | zero =>
      refine ⟨rfl, rfl, rfl, ?_⟩
      show (-1 : Int) = ((min 0 50 : Nat) : Int) - 1
      decide
  | succ n ih =>
      obtain ⟨ho, hsel, hh, hi⟩ := ih
      have hstep : commitSeq (initialEditorState objs sel) (n + 1)
          = saveToHistory (commitSeq (initialEditorState objs sel) n) n := rfl
      have hsnap : mkSnapshot (commitSeq (initialEditorState objs sel) n) n
          = commitSnap objs sel n := by
        simp [mkSnapshot, commitSnap, ho, hsel]
      have hm : ((commitSeq (initialEditorState objs sel) n).historyIndex + 1).toNat
          = min n 50 := by
        rw [hi]
        omega
      have hl : (commitSeq (initialEditorState objs sel) n).history.length = min n 50 := by
        rw [hh]
        simp only [List.length_map, List.length_drop, List.length_range]
        omega
      have htake : (commitSeq (initialEditorState objs sel) n).history.take
            ((commitSeq (initialEditorState objs sel) n).historyIndex + 1).toNat
          = (commitSeq (initialEditorState objs sel) n).history :=
        List.take_of_length_le (le_of_eq (hl.trans hm.symm))
      refine ⟨?_, ?_, ?_, ?_⟩
      · rw [hstep, saveToHistory_objects, ho]
      · rw [hstep, saveToHistory_selected, hsel]
      · rcases saveToHistory_cases (commitSeq (initialEditorState objs sel) n) n
          with ⟨hgt, hH, _⟩ | ⟨hle, hH, _⟩
        · rw [hm, hl] at hgt
          have h50 : 50 ≤ n := by omega
          rw [hstep, hH, htake, hsnap, hh]
          have e1 : List.map (commitSnap objs sel) ((List.range n).drop (n - 50))
                ++ [commitSnap objs sel n]
              = List.map (commitSnap objs sel) ((List.range (n + 1)).drop (n - 50)) := by
            rw [List.range_succ,
              List.drop_append_of_le_length (by simp [List.length_range]),
              List.map_append, List.map_singleton]
          rw [e1, ← List.map_tail, List.tail_drop]
          have e2 : n - 50 + 1 = n + 1 - 50 := by omega
          rw [e2]
        · rw [hm, hl] at hle
          have h50 : n < 50 := by omega
          have e0 : n - 50 = 0 := by omega
          have e0s : n + 1 - 50 = 0 := by omega
          rw [hstep, hH, htake, hsnap, hh, e0, e0s, List.drop_zero, List.drop_zero,
            List.range_succ, List.map_append, List.map_singleton]
      · rcases saveToHistory_cases (commitSeq (initialEditorState objs sel) n) n
          with ⟨hgt, _, hI⟩ | ⟨hle, _, hI⟩
        · rw [hm, hl] at hgt
          rw [hstep, hI, hi]
          have : min n 50 = min (n + 1) 50 := by omega
          rw [this]
        · rw [hm, hl] at hle
          rw [hstep, hI, hi]
          omega

/-- C3: committing `N > 50` snapshots in sequence from an empty history
leaves the log at length exactly 50, holding precisely the 50 newest
snapshots (the `N - 50` oldest were evicted first, FIFO), with the
cursor equal to 49 — the valid index of the newest entry. -/
theorem commit_past_cap_fifo (objs : List SceneObject) (sel : Option String) (N : Nat)
    (h : 50 < N) :
    (commitSeq (initialEditorState objs sel) N).history.length = 50 ∧
    (commitSeq (initialEditorState objs sel) N).history
      = ((List.range N).drop (N - 50)).map (commitSnap objs sel) ∧
    (commitSeq (initialEditorState objs sel) N).historyIndex = 49 ∧
    (commitSeq (initialEditorState objs sel) N).historyIndex
      = ((commitSeq (initialEditorState objs sel) N).history.length : Int) - 1 ∧
    (commitSeq (initialEditorState objs sel) N).history.get? 49
      = some (commitSnap objs sel (N - 1)) := by
  obtain ⟨-, -, hh, hi⟩ := commitSeq_spec objs sel N
  have hlen : (commitSeq (initialEditorState objs sel) N).history.length = 50 := by
    rw [hh]
    simp only [List.length_map, List.length_drop, List.length_range]
    omega
  have hidx : (commitSeq (initialEditorState objs sel) N).historyIndex = 49 := by
    rw [hi]
    have hmin : min N 50 = 50 := by omega
    rw [hmin]
    decide
  refine ⟨hlen, hh, hidx, by rw [hidx, hlen]; decide, ?_⟩
  rw [hh, List.get?_map, List.get?_drop, List.get?_range (by omega)]
  have e : N - 50 + 49 = N - 1 := by omega
  rw [e]
  rfl

theorem commit_past_cap_fifo_witness :
    50 < 51 ∧
    ((commitSeq (initialEditorState [] none) 51).history.length = 50 ∧
     (commitSeq (initialEditorState [] none) 51).history
       = ((List.range 51).drop (51 - 50)).map (commitSnap [] none) ∧
     (commitSeq (initialEditorState [] none) 51).historyIndex = 49 ∧
     (commitSeq (initialEditorState [] none) 51).historyIndex
       = ((commitSeq (initialEditorState [] none) 51).history.length : Int) - 1 ∧
     (commitSeq (initialEditorState [] none) 51).history.get? 49
       = some (commitSnap [] none (51 - 1))) :=
  ⟨by decide, commit_past_cap_fifo [] none 51 (by decide)⟩

theorem Vec3.getComp_setComp (v : Vec3) (i : Fin 3) (a : ℚ) :
    (v.setComp i a).getComp i = a := by
  fin_cases i <;> rfl

/-- C5 counterexample: `updateObject` itself performs no clamping — a
scale update with component value `0` is stored verbatim, so after the
update the stored component is `0`, which is `≤ 0` and not `0.1`. -/
theorem updateObject_stores_nonpositive_scale :
    ((updateObject oneBoxState "a" { scale := some ⟨0, 1, 1⟩ }).objects.map
        fun o => o.scale.x) = [0] ∧
    (0 : ℚ) ≤ 0 ∧ (0 : ℚ) ≠ 1/10 := by
  refine ⟨rfl, le_refl 0, by norm_num⟩

/-- C5 amended: the clamping lives in the Properties panel's scale input
handler, not in `updateObject`: a panel scale edit always stores a
component `≥ 0.1` on the edited object, and when the typed value parses
to `0`, a negative number, or does not parse at all, the stored
component is exactly `0.1`.  (`updateObject` itself stores whatever it
is given, and the gizmo/transform path performs no clamping.) -/
theorem panel_scale_edit_clamps (s : EditorState) (selObj : SceneObject) (i : Fin 3)
    (raw : Option ℚ) :
    (∀ o ∈ (scaleInputChange s selObj i raw).objects, o.id = selObj.id →
        (1 : ℚ)/10 ≤ o.scale.getComp i) ∧
    ((raw = none ∨ ∃ x, raw = some x ∧ x ≤ 0) →
      ∀ o ∈ (scaleInputChange s selObj i raw).objects, o.id = selObj.id →
        o.scale.getComp i = 1/10) := by
  have hmem : ∀ o ∈ (scaleInputChange s selObj i raw).objects, o.id = selObj.id →
      o.scale = selObj.scale.setComp i (max (1/10) (parsedScaleInput raw)) := by
    intro o ho hid
    simp only [scaleInputChange, updateObject, List.mem_map] at ho
    obtain ⟨a, ha, hfa⟩ := ho
    by_cases hcase : a.id = selObj.id
    · rw [if_pos hcase] at hfa
      subst hfa
      rfl
    · rw [if_neg hcase] at hfa
      subst hfa
      exact absurd hid hcase
  constructor
  · intro o ho hid
    rw [hmem o ho hid, Vec3.getComp_setComp]
    exact le_max_left _ _
  · intro hraw o ho hid
    rw [hmem o ho hid, Vec3.getComp_setComp]
    rcases hraw with hnone | ⟨x, hx, hxle⟩
    · rw [hnone]
      simp [parsedScaleInput]
    · rw [hx]
      simp only [parsedScaleInput]
      by_cases hx0 : x = 0
      · rw [if_pos hx0]
        simp
      · rw [if_neg hx0]
        exact max_eq_left (le_trans hxle (by norm_num))

theorem panel_scale_edit_clamps_witness :
    ((some (-1 : ℚ) = none ∨ ∃ x, some (-1 : ℚ) = some x ∧ x ≤ 0) ∧
     clampedObject ∈ (scaleInputChange oneBoxState (sampleObject "a") 0 (some (-1))).objects ∧
     clampedObject.id = (sampleObject "a").id) ∧
    clampedObject.scale.getComp 0 = 1/10 :=
  have hor : (some (-1 : ℚ) = none ∨ ∃ x, some (-1 : ℚ) = some x ∧ x ≤ 0) :=
    Or.inr ⟨-1, rfl, by norm_num⟩
  have hmem : clampedObject
      ∈ (scaleInputChange oneBoxState (sampleObject "a") 0 (some (-1))).objects := by
    show clampedObject ∈ [clampedObject]
    exact List.mem_singleton.mpr rfl
  ⟨⟨hor, hmem, rfl⟩,
   (panel_scale_edit_clamps oneBoxState (sampleObject "a") 0 (some (-1))).2
     hor clampedObject hmem rfl⟩

/-- C6 counterexample: loading a document whose `objects` field is a
string leaves the store untouched, but no error is reported: the
`console.error` flag is `false`, refuting the claimed `MalformedDocument`
report (the catch block only fires when `JSON.parse` itself throws). -/
theorem load_nonarray_silent_counterexample :
    (loadScene oneBoxState (some malformedDoc) 0).2 = false ∧
    (loadScene oneBoxState (some malformedDoc) 0).1 = oneBoxState :=
  ⟨rfl, rfl⟩

/-- C6 amended: for every loaded document whose `objects` field is not
an array, the load attempt is silently ignored: the Scene Store's
object collection and selection remain exactly as they were, and no
error is reported to the user/log — only a `JSON.parse` failure is
logged, never a non-array `objects` field. -/
theorem load_nonarray_noop_unlogged (s : EditorState) (doc : SceneDocument) (now : Nat)
    (h : doc.objects.isArr = false) :
    loadScene s (some doc) now = (s, false) := by
  simp only [loadScene]
  cases hdoc : doc.objects with
  | jarr objs =>
      rw [hdoc] at h
      exact Bool.noConfusion h
  | jstr v => rfl
  | jnull => rfl

theorem load_nonarray_noop_unlogged_witness :
    malformedDoc.objects.isArr = false ∧
    loadScene oneBoxState (some malformedDoc) 5 = (oneBoxState, false) :=
  ⟨rfl, load_nonarray_noop_unlogged oneBoxState malformedDoc 5 rfl⟩

/-- C8 (code bug): `handleKeyDown` never consults whether the event
target is a text input, so the shortcuts are not suppressed while focus
is inside one: with an object selected and focus in a text input,
`Backspace` still deletes the selected object and `s` still switches
the transform mode to scale, contradicting the specified suppression. -/
theorem handleKeyDown_ignores_text_input_focus :
    (handleKeyDown oneBoxState
        { key := "Backspace", ctrlKey := false, metaKey := false, shiftKey := false,
          targetIsTextInput := true } "fresh" 7).objects = [] ∧
    oneBoxState.objects ≠ [] ∧
    (handleKeyDown oneBoxState
        { key := "s", ctrlKey := false, metaKey := false, shiftKey := false,
          targetIsTextInput := true } "fresh" 7).transformMode = TransformMode.scale ∧
    oneBoxState.transformMode = TransformMode.translate := by
  refine ⟨rfl, ?_, rfl, rfl⟩
  intro hcontra
  exact List.noConfusion hcontra

end ThreeDEditor
